import Mathlib

/-
Verification development for the controller-endpoint scanner
(`src/main.rs`, function `search_in_dir` and its inline per-line
annotation automaton).

Shallow embedding conventions:
  - Rust `String`/`&str` become Lean `String`; the per-character loops
    walk `String.data : List Char`.
  - `line.len()` in the source is the UTF-8 *byte* length while the loop
    index counts *characters*; the embedding keeps that distinction with
    `byte_len` (sum of per-character UTF-8 sizes).
  - `panic!` becomes `Except.error` carrying the panic message; the
    `println!` diagnostics for skipped files become a list of warning
    strings returned alongside the results.
  - The filesystem is a value of an inductive tree type `FsEntry`;
    directory enumeration order is the list order.  Reading a
    directory's entries and a file's metadata, and opening a file, are
    assumed to succeed (their failure panics in the source and no claim
    exercises them); `read_to_end` failure is modelled by the
    `read_err` field of a file entry.
  - Rust `char::is_whitespace` / regex `\w` are modelled on their ASCII
    fragment (`Char.isWhitespace`, ASCII alphanumeric or underscore);
    every input exercised by the claims stays inside that fragment.
-/

deriving instance DecidableEq for Except

/-- HTTP verbs recognised by the scanner (Rust enum `HttpVerbs`). -/
inductive HttpVerbs where
  | get
  | post
  | put
  | patch
  | delete
  | options
  | head
  | any
deriving DecidableEq, Repr

/-- Rust `HttpVerbs::as_str`. -/
def HttpVerbs.as_str : HttpVerbs → String
  | .get => "GET"
  | .post => "POST"
  | .put => "PUT"
  | .patch => "PATCH"
  | .delete => "DELETE"
  | .options => "OPTIONS"
  | .head => "HEAD"
  | .any => "ANY"

/-- The if-else chain of `search_in_dir` that maps the accumulated
annotation-name buffer to a verb (lines 226-252 of `src/main.rs`),
with `none` for the `panic!("Unknown http verb annotation found:...")`
branch.  The comparison order is the source's. -/
def verb_of_buffer (s : String) : Option HttpVerbs :=
  if s = "@RequestMapping" then some .any
  else if s = "@DeleteMapping" then some .delete
  else if s = "@GetMapping" then some .get
  else if s = "@HeadMapping" then some .head
  else if s = "@OptionsMapping" then some .options
  else if s = "@PatchMapping" then some .patch
  else if s = "@PostMapping" then some .post
  else if s = "@PutMapping" then some .put
  else none

/-- ASCII fragment of the regex class `\w` (word character). -/
def is_word_char (c : Char) : Bool :=
  c.isAlphanum || c = '_'

/-- After the mandatory first word character: match `\w*` then the
literal `Mapping` (used for the regex `(@)\w+(Mapping).*`; the trailing
`.*` always matches and does not affect `is_match`). -/
def word_star_mapping : List Char → Bool
  | [] => false
  | c :: cs => "Mapping".data.isPrefixOf (c :: cs) || (is_word_char c && word_star_mapping cs)

/-- Match `\w+Mapping` at the head of the list. -/
def word_plus_mapping : List Char → Bool
  | [] => false
  | c :: cs => is_word_char c && word_star_mapping cs

/-- Unanchored search semantics of
`Regex::new(r"(@)\w+(Mapping).*").is_match(line)`: some position holds
`@`, then one or more word characters, then the literal `Mapping`. -/
def endpoint_regex_match : List Char → Bool
  | [] => false
  | c :: cs => (c = '@' && word_plus_mapping cs) || endpoint_regex_match cs

/-- Rust `str::trim` (whitespace stripped from both ends), on the ASCII
whitespace fragment. -/
def rust_trim (cs : List Char) : List Char :=
  ((cs.dropWhile Char.isWhitespace).reverse.dropWhile Char.isWhitespace).reverse

/-- Rust `line.trim().starts_with('@')`. -/
def trim_starts_with_marker (cs : List Char) : Bool :=
  match rust_trim cs with
  | [] => false
  | c :: _ => c = '@'

/-- The coarse per-line filter of line 201 of the source:
`endpoint_regex.is_match(line) && line.trim().starts_with('@')`. -/
def line_filter (line : String) : Bool :=
  endpoint_regex_match line.data && trim_starts_with_marker line.data

/-- UTF-8 encoded size of one character (Rust `char::len_utf8`). -/
def char_utf8_len (c : Char) : Nat :=
  if c.toNat < 128 then 1
  else if c.toNat < 2048 then 2
  else if c.toNat < 65536 then 3
  else 4

/-- Rust `str::len`: the UTF-8 byte length of the line. -/
def byte_len : List Char → Nat
  | [] => 0
  | c :: cs => char_utf8_len c + byte_len cs

/-- One (verb, path) match: Rust struct `ControllerRequestFileSearchResult`. -/
structure ControllerRequestFileSearchResult where
  http_verb : HttpVerbs
  rest_path : String
deriving DecidableEq, Repr

/-- Per-file report: Rust struct `ControllerFileSearchResult`. -/
structure ControllerFileSearchResult where
  file_name : String
  request_search_results : List ControllerRequestFileSearchResult
deriving DecidableEq, Repr

/-- The four states of the per-line automaton (Rust enum `Contexts`
inside the line loop). -/
inductive LineContext where
  | annotationName
  | annotationAttributes
  | endpointPath
  | eoc
deriving DecidableEq, Repr

/-- Mutable locals of the per-line automaton loop. -/
structure LineState where
  cur_context : LineContext
  str_buffer : String
  prev_c : Char
  endpoint_path : String
  http_verb : HttpVerbs
deriving DecidableEq, Repr

/-- Initial values of the automaton locals (lines 210-215 of the source). -/
def init_line_state : LineState :=
  { cur_context := .annotationName
    str_buffer := ""
    prev_c := '\x00'
    endpoint_path := ""
    http_verb := .any }

/-- One iteration of the character loop (lines 217-295 of the source).
`len` is the byte length of the line, `index` the character index.
The branch for an unescaped backslash in `EndpointPath` performs the
source's `continue`, which skips the trailing `prev_c = cur_c`
assignment: the state is returned unchanged. -/
def line_step (len : Nat) (st : LineState) (index : Nat) (cur_c : Char) :
    Except String LineState :=
  match st.cur_context with
  | .annotationName =>
    if cur_c = '(' ∨ index = len - 1 then
      match verb_of_buffer st.str_buffer with
      | some v =>
        .ok { st with
              http_verb := v
              str_buffer := ""
              cur_context := if cur_c = '(' then .annotationAttributes else st.cur_context
              prev_c := cur_c }
      | none => .error ("Unknown http verb annotation found:" ++ st.str_buffer)
    else
      .ok { st with
            str_buffer := if !cur_c.isWhitespace then st.str_buffer.push cur_c else st.str_buffer
            prev_c := cur_c }
  | .annotationAttributes =>
    .ok { st with
          cur_context := if cur_c = '"' then .endpointPath else .annotationAttributes
          prev_c := cur_c }
  | .endpointPath =>
    if cur_c = '"' ∧ st.prev_c ≠ '\\' then
      .ok { st with
            endpoint_path := st.str_buffer
            str_buffer := ""
            cur_context := .eoc
            prev_c := cur_c }
    else if cur_c = '\\' ∧ st.prev_c ≠ '\\' then
      .ok st
    else
      .ok { st with str_buffer := st.str_buffer.push cur_c, prev_c := cur_c }
  | .eoc => .ok { st with prev_c := cur_c }

/-- Run the character loop over the rest of the line, starting at
character index `index`. -/
def run_line_chars (len : Nat) (st : LineState) (index : Nat) :
    List Char → Except String LineState
  | [] => .ok st
  | c :: cs =>
    match line_step len st index c with
    | .error e => .error e
    | .ok st' => run_line_chars len st' (index + 1) cs

/-- Run the automaton over a whole line from the initial state. -/
def run_line (line : String) : Except String LineState :=
  run_line_chars (byte_len line.data) init_line_state 0 line.data

/-- The per-line parse: if the coarse filter accepts the line, run the
automaton and (as the source does unconditionally after the loop, lines
297-300) emit the match `(http_verb, endpoint_path)`; otherwise the
line contributes nothing. -/
def parse_line (line : String) : Except String (Option ControllerRequestFileSearchResult) :=
  if line_filter line then
    match run_line line with
    | .error e => .error e
    | .ok st => .ok (some ⟨st.http_verb, st.endpoint_path⟩)
  else
    .ok none

/-- Collect the matches of a list of lines in order, propagating the
fatal unknown-name error. -/
def scan_lines : List String → Except String (List ControllerRequestFileSearchResult)
  | [] => .ok []
  | l :: ls =>
    match parse_line l with
    | .error e => .error e
    | .ok none => scan_lines ls
    | .ok (some m) =>
      match scan_lines ls with
      | .error e => .error e
      | .ok ms => .ok (m :: ms)

/-- Rust `str::split('\n')`: `n` separators yield `n + 1` pieces. -/
def split_newline : List Char → List (List Char)
  | [] => [[]]
  | c :: cs =>
    if c = '\n' then [] :: split_newline cs
    else
      match split_newline cs with
      | [] => [[c]]
      | l :: ls => (c :: l) :: ls

/-- Scan a file's decoded content line by line (lines 197-302 of the
source). -/
def scan_content (content : String) : Except String (List ControllerRequestFileSearchResult) :=
  scan_lines ((split_newline content.data).map String.mk)


/-- A filesystem tree: regular files carry the metadata size reported
for them, an optional `read_to_end` failure reason, and their (lossily
decoded) text content; directories carry their entries in enumeration
order. -/
inductive FsEntry where
  | file (name : String) (size : Nat) (read_err : Option String) (content : String)
  | dir (name : String) (entries : List FsEntry)

/-- Rust `const BUFFER_SIZE : usize = 1024 * 1024 * 8` (8 MiB cap). -/
def BUFFER_SIZE : Nat := 1024 * 1024 * 8

/-- Path of a directory entry as displayed in diagnostics. -/
def path_join (d name : String) : String := d ++ "/" ++ name

/-- Diagnostic printed for an oversized file (line 173 of the source). -/
def size_warning (path : String) : String :=
  "Ignoring file " ++ path ++ " because it exceeds the buffer limit of "
    ++ Nat.repr BUFFER_SIZE ++ " bytes"

/-- Diagnostic printed when reading a file fails (line 187 of the source). -/
def read_warning (name reason : String) : String :=
  "Could not read file:" ++ name ++ ". Reason:" ++ reason

/-- Semantics of `Regex::new(r"^.?*(Controller\.java)$").is_match(name)`:
`.?*` is the stacked repetition `(.?)*`, which matches any run of
non-newline characters, so the name matches exactly when it ends with
the literal `Controller.java` and the part before the suffix contains
no newline. -/
def file_name_matches (name : String) : Bool :=
  "Controller.java".data.isSuffixOf name.data &&
    !((name.data.take (name.data.length - "Controller.java".data.length)).contains '\n')

/-- Rust `starts_with('.')` on a file or directory base name. -/
def starts_with_dot (s : String) : Bool :=
  match s.data with
  | [] => false
  | c :: _ => c = '.'

mutual

/-- Processing of one directory entry by `search_in_dir` (lines
149-307 of the source): a directory is recursed into unless its name
starts with `.`; a file is skipped with a warning when oversized,
skipped silently when its name does not match the controller pattern,
skipped with a warning when reading it fails, and otherwise scanned,
always producing a report (possibly with zero matches).  The result is
the pair of produced reports and printed warnings, or the propagated
fatal error. -/
def search_entry (d : String) :
    FsEntry → Except String (List ControllerFileSearchResult × List String)
  | .file name size read_err content =>
    if size > BUFFER_SIZE then
      .ok ([], [size_warning (path_join d name)])
    else if !file_name_matches name then
      .ok ([], [])
    else
      match read_err with
      | some e => .ok ([], [read_warning name e])
      | none =>
        match scan_content content with
        | .error e => .error e
        | .ok ms => .ok ([⟨name, ms⟩], [])
  | .dir name entries =>
    if starts_with_dot name then .ok ([], [])
    else search_in_dir (path_join d name) entries

/-- Rust `search_in_dir` over a directory's entry list: entries are
processed in order and their reports and warnings concatenated. -/
def search_in_dir (d : String) :
    List FsEntry → Except String (List ControllerFileSearchResult × List String)
  | [] => .ok ([], [])
  | e :: es =>
    match search_entry d e with
    | .error msg => .error msg
    | .ok (r1, w1) =>
      match search_in_dir d es with
      | .error msg => .error msg
      | .ok (r2, w2) => .ok (r1 ++ r2, w1 ++ w2)

end


/-- Projection of the `AnnotationName` phase of the automaton: the value
of the accumulated buffer at the moment the source first checks it
against the dictionary (first character that is `(` or whose index
equals the byte length minus one), or `none` when that check is never
reached. -/
def annotation_name_buffer (len : Nat) (buf : String) (index : Nat) :
    List Char → Option String
  | [] => none
  | c :: cs =>
    if c = '(' ∨ index = len - 1 then some buf
    else annotation_name_buffer len (if !c.isWhitespace then buf.push c else buf) (index + 1) cs

theorem line_step_name_term (len index : Nat) (c : Char) (st : LineState)
    (hctx : st.cur_context = .annotationName)
    (hterm : c = '(' ∨ index = len - 1)
    (hverb : verb_of_buffer st.str_buffer = none) :
    line_step len st index c = .error ("Unknown http verb annotation found:" ++ st.str_buffer) := by
  obtain ⟨ctx, sb, pc, ep, hv⟩ := st
  simp only at hctx hverb
  subst hctx
  simp only [line_step, if_pos hterm, hverb]

theorem line_step_name_cont (len index : Nat) (c : Char) (st : LineState)
    (hctx : st.cur_context = .annotationName)
    (hterm : ¬(c = '(' ∨ index = len - 1)) :
    line_step len st index c =
      .ok { st with
            str_buffer := if !c.isWhitespace then st.str_buffer.push c else st.str_buffer
            prev_c := c } := by
  obtain ⟨ctx, sb, pc, ep, hv⟩ := st
  simp only at hctx
  subst hctx
  simp only [line_step, if_neg hterm]

theorem run_line_chars_unknown (len : Nat) (cs : List Char) :
    ∀ (index : Nat) (st : LineState) (buf : String),
      st.cur_context = .annotationName →
      annotation_name_buffer len st.str_buffer index cs = some buf →
      verb_of_buffer buf = none →
      run_line_chars len st index cs = .error ("Unknown http verb annotation found:" ++ buf) := by
  induction cs with
  | nil =>
    intro index st buf hctx hbuf hverb
    simp [annotation_name_buffer] at hbuf
  | cons c cs ih =>
    intro index st buf hctx hbuf hverb
    rw [annotation_name_buffer] at hbuf
    by_cases hterm : c = '(' ∨ index = len - 1
    · rw [if_pos hterm] at hbuf
      obtain rfl : st.str_buffer = buf := by injection hbuf
      rw [run_line_chars, line_step_name_term len index c st hctx hterm hverb]
    · rw [if_neg hterm] at hbuf
      rw [run_line_chars, line_step_name_cont len index c st hctx hterm]
      exact ih (index + 1) _ buf hctx hbuf hverb

theorem line_step_path_inv (len index : Nat) (c : Char) (st st' : LineState)
    (h : line_step len st index c = .ok st')
    (hinv : st.cur_context ≠ .eoc → st.endpoint_path = "") :
    st'.cur_context ≠ .eoc → st'.endpoint_path = "" := by
  obtain ⟨ctx, sb, pc, ep, hv⟩ := st
  cases ctx with
  | annotationName =>
    have hep : ep = "" := hinv (by simp)
    subst hep
    simp only [line_step] at h
    split at h
    · split at h
      · injection h with h'; subst h'; simp
      · exact absurd h (by simp)
    · injection h with h'; subst h'; simp
  | annotationAttributes =>
    have hep : ep = "" := hinv (by simp)
    subst hep
    simp only [line_step] at h
    injection h with h'; subst h'; simp
  | endpointPath =>
    have hep : ep = "" := hinv (by simp)
    subst hep
    simp only [line_step] at h
    split at h
    · injection h with h'; subst h'; simp
    · split at h
      · injection h with h'; subst h'; simp
      · injection h with h'; subst h'; simp
  | eoc =>
    simp only [line_step] at h
    injection h with h'; subst h'; simp

theorem run_line_chars_path_inv (len : Nat) (cs : List Char) :
    ∀ (index : Nat) (st st' : LineState),
      run_line_chars len st index cs = .ok st' →
      (st.cur_context ≠ .eoc → st.endpoint_path = "") →
      (st'.cur_context ≠ .eoc → st'.endpoint_path = "") := by
  induction cs with
  | nil =>
    intro index st st' h hinv
    rw [run_line_chars] at h
    injection h with h'
    subst h'
    exact hinv
  | cons c cs ih =>
    intro index st st' h hinv
    rw [run_line_chars] at h
    cases hstep : line_step len st index c with
    | error e => rw [hstep] at h; exact absurd h (by simp)
    | ok st1 => rw [hstep] at h; exact ih _ _ _ h (line_step_path_inv _ _ _ _ _ hstep hinv)

theorem scan_lines_splice (l : String) (h : parse_line l = .ok none) :
    ∀ (pre post : List String), scan_lines (pre ++ l :: post) = scan_lines (pre ++ post) := by
  intro pre
  induction pre with
  | nil =>
    intro post
    rw [List.nil_append, List.nil_append, scan_lines, h]
  | cons p pre ih =>
    intro post
    cases hp : parse_line p with
    | error e => simp [scan_lines, hp]
    | ok o =>
      cases o with
      | none => simp [scan_lines, hp, ih post]
      | some m => simp [scan_lines, hp, ih post]

theorem search_in_dir_append (d : String) (xs ys : List FsEntry) :
    search_in_dir d (xs ++ ys) =
      match search_in_dir d xs, search_in_dir d ys with
      | .error e, _ => .error e
      | .ok _, .error e => .error e
      | .ok (r1, w1), .ok (r2, w2) => .ok (r1 ++ r2, w1 ++ w2) := by
  induction xs with
  | nil =>
    cases h : search_in_dir d ys with
    | error e => simp [search_in_dir, h]
    | ok p => cases p with | mk r w => simp [search_in_dir, h]
  | cons x xs ih =>
    cases hx : search_entry d x with
    | error e => simp [search_in_dir, hx]
    | ok p =>
      cases p with
      | mk r1 w1 =>
        cases h1 : search_in_dir d xs with
        | error e => simp [search_in_dir, hx, ih, h1]
        | ok q =>
          cases q with
          | mk r2 w2 =>
            cases h2 : search_in_dir d ys with
            | error e => simp [search_in_dir, hx, ih, h1, h2]
            | ok s =>
              cases s with
              | mk r3 w3 => simp [search_in_dir, hx, ih, h1, h2, List.append_assoc]

/-- C1: the spec claims that for the line `@PostMapping("/a\"b")` the
parser returns (POST, `/a"b`), the escaped quote being copied rather
than terminating the path.  The code disagrees: the `continue` that
drops the unescaped backslash also skips the `prev_c = cur_c` update,
so the following quote is never seen as escaped and terminates the
path; the parser returns (POST, `/a`). -/
theorem c1_escaped_quote_divergence :
    parse_line "@PostMapping(\"/a\\\"b\")" = .ok (some ⟨HttpVerbs.post, "/a"⟩) ∧
    parse_line "@PostMapping(\"/a\\\"b\")" ≠ .ok (some ⟨HttpVerbs.post, "/a\"b"⟩) :=
  ⟨by decide, by decide⟩

/-- C2: the spec claims that for the line `@DeleteMapping` (no
parentheses, no trailing characters) the parser returns (DELETE, "").
The code disagrees: the end-of-line condition `index == line.len() - 1`
fires on the final character before that character is pushed into the
buffer, so the dictionary lookup sees `@DeleteMappin` and the scan
panics with an unknown-annotation error. -/
theorem c2_no_paren_divergence :
    line_filter "@DeleteMapping" = true ∧
    parse_line "@DeleteMapping" = .error "Unknown http verb annotation found:@DeleteMappin" :=
  ⟨by decide, by decide⟩

/-- C3 (counterexample): the line `@FooMappingé` passes the coarse
filter and its accumulated annotation-name buffer `@FooMappingé`
matches none of the eight known names, yet the scan does not fail: the
end-of-line condition compares the character index with the byte
length, which a multi-byte character makes unreachable, so the buffer
is never checked and the match (ANY, "") is emitted. -/
theorem c3_unknown_name_counterexample :
    line_filter "@FooMappingé" = true ∧
    run_line "@FooMappingé" = .ok ⟨.annotationName, "@FooMappingé", 'é', "", .any⟩ ∧
    verb_of_buffer "@FooMappingé" = none ∧
    parse_line "@FooMappingé" = .ok (some ⟨HttpVerbs.any, ""⟩) :=
  ⟨by decide, by decide, by decide, by decide⟩

/-- C3 (amended): for every line that passes the coarse filter and
whose annotation-name buffer, at the moment the automaton's
name-termination condition is reached (first character that is `(` or
whose character index equals the byte length minus one), matches none
of the eight known annotation names, the scan fails fatally with an
error identifying the offending name.  (When that condition is never
reached — possible only for a line with a multi-byte character and no
parenthesis — the buffer is never checked.) -/
theorem c3_unknown_name_fatal (line buf : String)
    (hfilter : line_filter line = true)
    (hbuf : annotation_name_buffer (byte_len line.data) "" 0 line.data = some buf)
    (hverb : verb_of_buffer buf = none) :
    parse_line line = .error ("Unknown http verb annotation found:" ++ buf) := by
  have h := run_line_chars_unknown (byte_len line.data) line.data 0 init_line_state buf
    rfl hbuf hverb
  simp [parse_line, hfilter, run_line, h]

/-- Witness for C3 (amended) at the claim's own example `@FooMapping("/x")`. -/
theorem c3_unknown_name_fatal_witness :
    line_filter "@FooMapping(\"/x\")" = true ∧
    annotation_name_buffer (byte_len "@FooMapping(\"/x\")".data) "" 0 "@FooMapping(\"/x\")".data
      = some "@FooMapping" ∧
    verb_of_buffer "@FooMapping" = none ∧
    parse_line "@FooMapping(\"/x\")" = .error ("Unknown http verb annotation found:" ++ "@FooMapping") :=
  ⟨by decide, by decide, by decide,
    c3_unknown_name_fatal _ _ (by decide) (by decide) (by decide)⟩

/-- C4 (counterexample): for the recognized annotation line
`@GetMapping(x)`, whose attribute section contains no double-quote, the
spec claims no EndpointMatch is emitted; the code emits the match
(GET, "") for that line (the push after the character loop is
unconditional). -/
theorem c4_no_quote_counterexample :
    line_filter "@GetMapping(x)" = true ∧
    parse_line "@GetMapping(x)" = .ok (some ⟨HttpVerbs.get, ""⟩) :=
  ⟨by decide, by decide⟩

/-- C4 (amended): for every recognized annotation line whose attribute
section cannot be parsed into a quoted string (the automaton never
reaches the EOC state: no double-quote after the parenthesis, or an
unterminated quoted string), the match emitted for that line carries
the empty path — the initial value — never an absent or partial one. -/
theorem c4_unparsed_attr_empty_path (line : String) (st : LineState)
    (hfilter : line_filter line = true)
    (hrun : run_line line = .ok st)
    (hctx : st.cur_context ≠ .eoc) :
    parse_line line = .ok (some ⟨st.http_verb, ""⟩) := by
  rw [run_line] at hrun
  have hpath : st.endpoint_path = "" :=
    run_line_chars_path_inv (byte_len line.data) line.data 0 init_line_state st hrun
      (fun _ => rfl) hctx
  simp [parse_line, hfilter, run_line, hrun, hpath]

/-- Witness for C4 (amended) at a line with an unterminated quoted string. -/
theorem c4_unparsed_attr_empty_path_witness :
    line_filter "@PutMapping(\"/open" = true ∧
    run_line "@PutMapping(\"/open" = .ok ⟨.endpointPath, "/open", 'n', "", .put⟩ ∧
    parse_line "@PutMapping(\"/open" = .ok (some ⟨HttpVerbs.put, ""⟩) :=
  ⟨by decide, by decide,
    c4_unparsed_attr_empty_path "@PutMapping(\"/open" ⟨.endpointPath, "/open", 'n', "", .put⟩
      (by decide) (by decide) (by decide)⟩

/-- C5: every line that fails the coarse filter (the `@`-word-`Mapping`
regex together with the trimmed line starting with `@`) produces no
match and contributes nothing to the file's report. -/
theorem c5_filter_reject (line : String) (h : line_filter line = false) :
    parse_line line = .ok none ∧
    ∀ (pre post : List String), scan_lines (pre ++ line :: post) = scan_lines (pre ++ post) := by
  have hp : parse_line line = .ok none := by simp [parse_line, h]
  exact ⟨hp, scan_lines_splice line hp⟩

/-- Witness for C5 at an ordinary non-matching source line. -/
theorem c5_filter_reject_witness :
    line_filter "int x = 0;" = false ∧
    parse_line "int x = 0;" = .ok none ∧
    scan_lines ["@GetMapping(\"/a\")", "int x = 0;"] = scan_lines ["@GetMapping(\"/a\")"] :=
  ⟨by decide, (c5_filter_reject _ (by decide)).1,
    (c5_filter_reject _ (by decide)).2 ["@GetMapping(\"/a\")"] []⟩

/-- C6: for the line `@RequestMapping(value = "/health")` the parser
returns (ANY, "/health"): the attributes state skips every character,
named-attribute syntax included, until the first double-quote, whose
quoted string becomes the path. -/
theorem c6_request_mapping_first_quoted :
    parse_line "@RequestMapping(value = \"/health\")" = .ok (some ⟨HttpVerbs.any, "/health"⟩) := by
  decide

/-- C7: every file that passes the naming filter and the size cap and is
read successfully contributes a report to the scan result — even one
with zero matches: whenever a successful run covers a directory listing
containing such a file, a report named after it, holding exactly the
matches scanned from its content, is in the result list. -/
theorem c7_report_always_added (d : String) (pre post : List FsEntry)
    (name content : String) (size : Nat)
    (res : List ControllerFileSearchResult) (warns : List String)
    (hsz : ¬ size > BUFFER_SIZE)
    (hname : file_name_matches name = true)
    (hrun : search_in_dir d (pre ++ FsEntry.file name size none content :: post) = .ok (res, warns)) :
    ∃ ms, scan_content content = .ok ms ∧
      ControllerFileSearchResult.mk name ms ∈ res := by
  rw [search_in_dir_append] at hrun
  cases h1 : search_in_dir d pre with
  | error e => rw [h1] at hrun; simp at hrun
  | ok p =>
    cases p with
    | mk r1 w1 =>
      rw [h1] at hrun
      cases hscan : scan_content content with
      | error e => simp [search_in_dir, search_entry, hsz, hname, hscan] at hrun
      | ok ms =>
        refine ⟨ms, rfl, ?_⟩
        cases h2 : search_in_dir d post with
        | error e => simp [search_in_dir, search_entry, hsz, hname, hscan, h2] at hrun
        | ok q =>
          cases q with
          | mk r2 w2 =>
            simp [search_in_dir, search_entry, hsz, hname, hscan, h2] at hrun
            obtain ⟨hres, hw⟩ := hrun
            subst hres
            simp

/-- Witness for C7: a controller file with no annotations still yields
an (empty) report. -/
theorem c7_report_always_added_witness :
    (¬ (5 : Nat) > BUFFER_SIZE) ∧ file_name_matches "FooController.java" = true ∧
    search_in_dir "root" [FsEntry.file "FooController.java" 5 none "hello"]
      = .ok ([⟨"FooController.java", []⟩], []) ∧
    (∃ ms, scan_content "hello" = .ok ms ∧
      ControllerFileSearchResult.mk "FooController.java" ms
        ∈ [ControllerFileSearchResult.mk "FooController.java" []]) :=
  ⟨by decide, by decide, by decide,
    c7_report_always_added "root" [] [] "FooController.java" "hello" 5
      [⟨"FooController.java", []⟩] [] (by decide) (by decide) (by decide)⟩

/-- C8: every regular file whose metadata size exceeds the 8 MiB cap is
skipped with the size warning — regardless of its name — and
contributes no report: processing the entry yields no report and the
warning, and a directory listing containing it scans to exactly the
reports of the other entries, with the warning inserted in traversal
order. -/
theorem c8_oversized_skipped (d name : String) (size : Nat) (read_err : Option String)
    (content : String) (pre post : List FsEntry)
    (h : size > BUFFER_SIZE) :
    search_entry d (.file name size read_err content)
      = .ok ([], [size_warning (path_join d name)]) ∧
    search_in_dir d (pre ++ FsEntry.file name size read_err content :: post) =
      (match search_in_dir d pre, search_in_dir d post with
       | .error e, _ => .error e
       | .ok _, .error e => .error e
       | .ok (r1, w1), .ok (r2, w2) =>
         .ok (r1 ++ r2, w1 ++ size_warning (path_join d name) :: w2)) := by
  have hentry : search_entry d (.file name size read_err content)
      = .ok ([], [size_warning (path_join d name)]) := by
    simp [search_entry, h]
  refine ⟨hentry, ?_⟩
  rw [search_in_dir_append]
  cases h1 : search_in_dir d pre with
  | error e => rfl
  | ok p =>
    cases p with
    | mk r1 w1 =>
      cases h2 : search_in_dir d post with
      | error e => simp [search_in_dir, hentry, h2]
      | ok q =>
        cases q with
        | mk r2 w2 => simp [search_in_dir, hentry, h2]

/-- Witness for C8 at a file exactly one byte over the cap. -/
theorem c8_oversized_skipped_witness :
    (8388609 : Nat) > BUFFER_SIZE ∧
    search_entry "root" (.file "BigController.java" 8388609 none "")
      = .ok ([], [size_warning (path_join "root" "BigController.java")]) :=
  ⟨by decide,
    (c8_oversized_skipped "root" "BigController.java" 8388609 none "" [] [] (by decide)).1⟩

/-- C9 (counterexample): the claim says a regular file whose name does
not end in `Controller.java` is skipped silently regardless of its
size; but the size check precedes the name check, so an oversized
non-matching file is skipped with the size warning — a diagnostic is
emitted for it. -/
theorem c9_nonmatching_warned_counterexample :
    file_name_matches "Foo.txt" = false ∧
    search_entry "d" (.file "Foo.txt" 8388609 none "")
      = .ok ([], [size_warning (path_join "d" "Foo.txt")]) ∧
    [size_warning (path_join "d" "Foo.txt")] ≠ ([] : List String) :=
  ⟨by decide, by decide, by decide⟩

/-- C9 (amended): every regular file whose name does not end with
`Controller.java` and whose size does not exceed the 8 MiB cap is
skipped silently: processing it yields no report and no diagnostic,
and a directory listing scans exactly as if the file were absent.
(An oversized file is skipped with the size warning before the name
filter is consulted.) -/
theorem c9_nonmatching_silent_skip (d name : String) (size : Nat) (read_err : Option String)
    (content : String)
    (hname : file_name_matches name = false)
    (hsz : ¬ size > BUFFER_SIZE) :
    search_entry d (.file name size read_err content) = .ok ([], []) ∧
    ∀ (pre post : List FsEntry),
      search_in_dir d (pre ++ FsEntry.file name size read_err content :: post)
        = search_in_dir d (pre ++ post) := by
  have hentry : search_entry d (.file name size read_err content) = .ok ([], []) := by
    simp [search_entry, hname, hsz]
  refine ⟨hentry, ?_⟩
  intro pre post
  rw [search_in_dir_append, search_in_dir_append]
  cases h1 : search_in_dir d pre with
  | error e => rfl
  | ok p =>
    cases p with
    | mk r1 w1 =>
      cases h2 : search_in_dir d post with
      | error e => simp [search_in_dir, hentry, h2]
      | ok q =>
        cases q with
        | mk r2 w2 => simp [search_in_dir, hentry, h2]

/-- Witness for C9 (amended) at a small non-matching file. -/
theorem c9_nonmatching_silent_skip_witness :
    file_name_matches "Readme.md" = false ∧ (¬ (3 : Nat) > BUFFER_SIZE) ∧
    search_entry "d" (.file "Readme.md" 3 none "x") = .ok ([], []) ∧
    search_in_dir "d" [FsEntry.file "AController.java" 1 none "", FsEntry.file "Readme.md" 3 none "x"]
      = search_in_dir "d" [FsEntry.file "AController.java" 1 none ""] :=
  ⟨by decide, by decide,
    (c9_nonmatching_silent_skip "d" "Readme.md" 3 none "x" (by decide) (by decide)).1,
    (c9_nonmatching_silent_skip "d" "Readme.md" 3 none "x" (by decide) (by decide)).2
      [FsEntry.file "AController.java" 1 none ""] []⟩

/-- C10: the leading-dot exclusion applies only to directories, never to
regular files: a file whose base name starts with `.` but matches the
controller pattern and the size cap is scanned like any other
qualifying file and its report is produced, while a directory of the
same name would be skipped. -/
theorem c10_hidden_file_scanned (d name : String) (size : Nat) (content : String)
    (ms : List ControllerRequestFileSearchResult)
    (hdot : starts_with_dot name = true)
    (hname : file_name_matches name = true)
    (hsz : ¬ size > BUFFER_SIZE)
    (hscan : scan_content content = .ok ms) :
    search_entry d (.file name size none content) = .ok ([⟨name, ms⟩], []) ∧
    ∀ (entries : List FsEntry), search_entry d (.dir name entries) = .ok ([], []) := by
  constructor
  · simp [search_entry, hsz, hname, hscan]
  · intro entries
    simp [search_entry, hdot]

/-- Witness for C10 at `.HiddenController.java`. -/
theorem c10_hidden_file_scanned_witness :
    starts_with_dot ".HiddenController.java" = true ∧
    file_name_matches ".HiddenController.java" = true ∧
    scan_content "@GetMapping(\"/h\")" = .ok [⟨.get, "/h"⟩] ∧
    search_entry "d" (.file ".HiddenController.java" 17 none "@GetMapping(\"/h\")")
      = .ok ([⟨".HiddenController.java", [⟨.get, "/h"⟩]⟩], []) ∧
    search_entry "d" (.dir ".HiddenController.java" []) = .ok ([], []) :=
  ⟨by decide, by decide, by decide,
    (c10_hidden_file_scanned "d" ".HiddenController.java" 17 "@GetMapping(\"/h\")"
      [⟨.get, "/h"⟩] (by decide) (by decide) (by decide) (by decide)).1,
    (c10_hidden_file_scanned "d" ".HiddenController.java" 17 "@GetMapping(\"/h\")"
      [⟨.get, "/h"⟩] (by decide) (by decide) (by decide) (by decide)).2 []⟩
